import Mathlib

/-!
Shallow embedding of the utility functions in src/utils.py of the
sumformer2 repository: dataset splitting, dataset loading with filtering
and sorting, learning rate scheduler selection, and batch construction
with padding. Tensors stay lists, a raised Python exception is modelled
as none, and the library shuffle is an explicit function parameter.
-/

/-- A row of the concatenated reddit TIFU dataset after column renaming:
a document together with its summary. -/
structure RawInst where
  document : String
  summary : String
deriving DecidableEq

/-- A dataset row after the map step of load_reddit that adds the derived
doc_len field, doc_len being the length of the document. -/
structure Inst where
  document : String
  summary : String
  doc_len : Nat
deriving DecidableEq

/-- Model of the dataset library train_test_split with fractional
test_size f on a list of n rows: the test part receives the last
ceil(f * n) rows and the train part the first n - ceil(f * n) rows of the
(already shuffled) input. -/
def train_test_split {α : Type} (test_size : ℚ) (l : List α) : List α × List α :=
  let nTest := (⌈test_size * l.length⌉).toNat
  (l.take (l.length - nTest), l.drop (l.length - nTest))

/-- Embedding of split_data (src/utils.py lines 46 to 57). The library
shuffle is modelled by an explicit shuffle function passed in; the two
sequential train_test_split calls mirror the source. flatten_indices is a
physical re-layout with no logical effect and is omitted. -/
def split_data {α : Type} (shuffle : List α → List α) (dataset : List α)
    (train_split val_split : ℚ) : List α × List α × List α :=
  let d := shuffle dataset
  let p1 := train_test_split (1 - train_split) d
  let p2 := train_test_split (1 - val_split / (1 - train_split)) p1.2
  (p1.1, p2.1, p2.2)

/-- The comparison used by the sort on the doc_len column. -/
def doc_len_le (a b : Inst) : Bool := decide (a.doc_len ≤ b.doc_len)

/-- Embedding of load_reddit (src/utils.py lines 14 to 43) from the point
where the concatenated dataset is in hand: the network download and the
column renaming are outside the embedding, so the concatenated dataset is
a parameter. The filter, the doc_len map, the shuffled split and the
three sorts by doc_len mirror the source. -/
def load_reddit (shuffle : List Inst → List Inst) (dataset : List RawInst)
    (train_split val_split : ℚ) (min_len : Nat) :
    List Inst × List Inst × List Inst :=
  let filtered := dataset.filter fun x =>
    decide (min_len < x.document.length) && decide (min_len < x.summary.length) &&
      decide (x.summary.length < x.document.length)
  let mapped := filtered.map fun x => Inst.mk x.document x.summary x.document.length
  let s := split_data shuffle mapped train_split val_split
  (s.1.mergeSort doc_len_le, s.2.1.mergeSort doc_len_le, s.2.2.mergeSort doc_len_le)

/-- The scheduler objects init_schedule can construct: one constructor per
torch scheduler class used by the source, carrying the arguments the
source passes. -/
inductive Scheduler where
  | lambdaLR (lr_lambda : Nat → ℝ)
  | cosineAnnealingWarmRestarts (T_0 : Nat) (T_mult : Nat) (eta_min : ℝ) (last_epoch : Int)
  | linearLR (start_factor : ℝ) (end_factor : ℝ) (total_iters : Nat)
  | oneCycleLR (max_lr : ℝ) (total_steps : Nat) (pct_start : ℝ) (anneal_strategy : String)

/-- Embedding of init_schedule (src/utils.py lines 60 to 76). The
optimizer is not modelled: torch stores it inside the scheduler but this
code never inspects it. len(train_loader) is the parameter
train_loader_len. The raised ValueError of the final branch is modelled
as none. -/
noncomputable def init_schedule (sched : String) (train_loader_len : Nat)
    (lr : ℝ) (epochs : Nat) (emb_dim : Nat) : Option Scheduler :=
  if sched = "constant" ∨ sched = "none" then
    some (Scheduler.lambdaLR fun _ => 1)
  else if sched = "cosineannealing" then
    some (Scheduler.cosineAnnealingWarmRestarts 10 1 0 (-1))
  else if sched = "invsqrt" then
    some (Scheduler.lambdaLR fun epoch =>
      if 0 < epoch then 1 / Real.sqrt (epoch : ℝ) else 1)
  else if sched = "linear" then
    some (Scheduler.linearLR (lr / 5) lr (train_loader_len * epochs))
  else if sched = "onecycle" then
    some (Scheduler.oneCycleLR lr (train_loader_len * epochs) (3 / 10) "linear")
  else if sched = "noam" then
    some (Scheduler.lambdaLR fun current_step =>
      (emb_dim : ℝ) ^ (-(1 / 2) : ℝ) *
        min ((current_step + 1 : ℝ) ^ (-(1 / 2) : ℝ))
          ((current_step + 1 : ℝ) *
            ((3 / 10 : ℝ) * train_loader_len * epochs) ^ (-(3 / 2) : ℝ)))
  else none

/-- The scheduler names recognized by the if chain of init_schedule, in
source order. -/
def recognized_scheds : List String :=
  ["constant", "none", "cosineannealing", "invsqrt", "linear", "onecycle", "noam"]
/-- Whether the bare name torch is bound in the module namespace of
src/utils.py. Lines 1 to 5 import math, two names from the datasets
package, lr_scheduler from torch.optim and three names from
torch.utils.data; no statement binds torch itself, so the name is
unbound. -/
def torch_bound : Bool := false

/-- Padding and stacking step for one batch (src/utils.py lines 99 to
103): the per batch maximum length at line 99 (the Python max call
raises on an empty batch, modelled as none), then the tensor
construction at lines 102 to 103. Evaluating torch.stack first resolves
the name torch; in the staged module that lookup raises NameError,
modelled as none. Were torch bound, the result would be the sequences
each extended with pad tokens up to max_len. -/
def pad_batch (pad_token : Int) (batch_x : List (List Int)) : Option (List (List Int)) :=
  match (batch_x.map List.length).max? with
  | none => none
  | some max_len =>
    if torch_bound then
      some (batch_x.map fun seq => seq ++ List.replicate (max_len - seq.length) pad_token)
    else none

/-- The loop of batch_by_instances (src/utils.py lines 94 to 109): one
iteration per slice start in range(0, len(sequences), batch_size),
slicing both lists at the same offsets. An exception inside an iteration
(the NameError of the unbound torch, surfacing through pad_batch) aborts
the whole call. -/
def batch_loop (pad_token : Int) (batch_size : Nat) (sequences : List (List Int))
    (labels : List Int) : Option (List (List (List Int)) × List (List Int)) :=
  if hs : sequences.isEmpty then some ([], [])
  else if hb : batch_size = 0 then none
  else
    match pad_batch pad_token (sequences.take batch_size),
        batch_loop pad_token batch_size (sequences.drop batch_size)
          (labels.drop batch_size) with
    | some px, some r => some (px :: r.1, labels.take batch_size :: r.2)
    | _, _ => none
termination_by sequences.length
decreasing_by
  simp only [List.length_drop]
  have h1 : sequences ≠ [] := by simpa [List.isEmpty_iff] using hs
  have h2 : 0 < sequences.length := List.length_pos.mpr h1
  omega

/-- Embedding of batch_by_instances (src/utils.py lines 79 to 111). The
device argument is not modelled and batches stay lists of lists. In the
source batch_size defaults to 32 and pad_token to 0. A batch_size of
zero makes range raise, modelled as none; with the name torch unbound,
every call on a non-empty sequence list ends in NameError, also none. -/
def batch_by_instances (sequences : List (List Int)) (labels : List Int)
    (batch_size : Nat) (pad_token : Int) :
    Option (List (List (List Int)) × List (List Int)) :=
  if batch_size = 0 then none
  else batch_loop pad_token batch_size sequences labels

/-- With torch unbound the padding and stacking step always fails: on an
empty batch the max call raises, otherwise the torch name lookup
does. -/
theorem pad_batch_none (p : Int) (c : List (List Int)) : pad_batch p c = none := by
  unfold pad_batch
  cases hmax : (c.map List.length).max? with
  | none => rfl
  | some m => simp [torch_bound]

/-- One step unfolding of batch_loop on a nonempty sequence list with a
positive batch size. -/
theorem batch_loop_cons (p : Int) (b : Nat) (seqs : List (List Int))
    (labels : List Int) (hs : seqs ≠ []) (hb : b ≠ 0) :
    batch_loop p b seqs labels =
      match pad_batch p (seqs.take b), batch_loop p b (seqs.drop b) (labels.drop b) with
      | some px, some r => some (px :: r.1, labels.take b :: r.2)
      | _, _ => none := by
  rw [batch_loop]
  rw [dif_neg (by simpa [List.isEmpty_iff] using hs), dif_neg hb]

/-- batch_loop on an empty sequence list returns two empty lists. -/
theorem batch_loop_nil (p : Int) (b : Nat) (labels : List Int) :
    batch_loop p b [] labels = some ([], []) := by
  rw [batch_loop]
  simp

/-- C10: on an empty sequence list and an empty label list and a positive
batch size, batch_by_instances returns two empty lists and no error: the
loop body, and with it the per batch max and the torch lookup, is never
reached. -/
theorem batch_by_instances_empty (b : Nat) (p : Int) (hb : 0 < b) :
    batch_by_instances [] [] b p = some ([], []) := by
  unfold batch_by_instances
  rw [if_neg (Nat.pos_iff_ne_zero.mp hb), batch_loop_nil]

/-- Witness for batch_by_instances_empty at the source default batch size
32 and pad token 0. -/
theorem batch_by_instances_empty_w :
    0 < 32 ∧ batch_by_instances [] [] 32 0 = some ([], []) :=
  ⟨by decide, batch_by_instances_empty 32 0 (by decide)⟩

/-- C1: evaluation of the staged code: the module never binds the name
torch, so on every non-empty sequence list and positive batch size
batch_by_instances raises NameError at the tensor construction of its
first iteration, modelled as none; no batches are ever returned, let
alone ceil(n / b) of them. -/
theorem batch_by_instances_raises (x : List Int) (seqs : List (List Int))
    (labels : List Int) (b : Nat) (p : Int) :
    batch_by_instances (x :: seqs) labels (b + 1) p = none := by
  unfold batch_by_instances
  rw [if_neg (Nat.succ_ne_zero b),
    batch_loop_cons p (b + 1) (x :: seqs) labels (List.cons_ne_nil x seqs)
      (Nat.succ_ne_zero b), pad_batch_none]

/-- C2: evaluation of the staged code at a concrete input whose batch
would need padding: the torch name lookup at line 102 fails before any
padded batch is built, so the call returns none and there is no batch
whose rows could be inspected. -/
theorem batch_by_instances_pad_raises :
    batch_by_instances [[7], [8, 9]] [1, 2] 2 0 = none := by
  rw [batch_by_instances, if_neg (by decide),
    batch_loop_cons 0 2 [[7], [8, 9]] [1, 2] (by decide) (by decide),
    pad_batch_none]

/-- C3: evaluation of the staged code at the example of the spec: with
sequences [[1, 2], [3]], labels [0, 1], batch size 2 and pad token 0,
max_len is computed and then the torch name lookup raises NameError, so
the call returns none instead of the stated single batch. -/
theorem batch_by_instances_example_raises :
    batch_by_instances [[1, 2], [3]] [0, 1] 2 0 = none := by
  rw [batch_by_instances, if_neg (by decide),
    batch_loop_cons 0 2 [[1, 2], [3]] [0, 1] (by decide) (by decide),
    pad_batch_none]

/-- C8: evaluation of the staged code at a two batch input: no label
batch is ever returned because the first iteration raises NameError at
the torch lookup, so the returned label batches cannot concatenate to
the label list. -/
theorem batch_by_instances_order_raises :
    batch_by_instances [[4, 5], [6]] [2, 3] 1 0 = none := by
  rw [batch_by_instances, if_neg (by decide),
    batch_loop_cons 0 1 [[4, 5], [6]] [2, 3] (by decide) (by decide),
    pad_batch_none]

/-- C4 as amended: init_schedule fails exactly on names outside the
recognized list, the name bogus fails, and every recognized name yields a
scheduler; the recognized list has seven names, not six. -/
theorem init_schedule_recognized (tl : Nat) (lr : ℝ) (e d : Nat) :
    (∀ s, (init_schedule s tl lr e d).isSome = true ↔ s ∈ recognized_scheds) ∧
    init_schedule "bogus" tl lr e d = none ∧
    ∀ r ∈ recognized_scheds, (init_schedule r tl lr e d).isSome = true := by
  have hmain : ∀ s, (init_schedule s tl lr e d).isSome = true ↔ s ∈ recognized_scheds := by
    intro s
    unfold init_schedule
    split_ifs with h1 h2 h3 h4 h5 h6 <;> simp_all [recognized_scheds] <;> tauto
  refine ⟨hmain, ?_, fun r hr => (hmain r).mpr hr⟩
  have hbogus : ¬ (("bogus" : String) ∈ recognized_scheds) := by decide
  have h2 := hmain "bogus"
  cases hcase : init_schedule "bogus" tl lr e d with
  | none => rfl
  | some v =>
    rw [hcase] at h2
    simp at h2
    exact absurd h2 hbogus

/-- C4 counterexample to the stated count: the if chain of init_schedule
recognizes seven pairwise distinct names, each returning a scheduler,
while bogus returns none; so the recognized names are seven, not six. -/
theorem init_schedule_seven_names :
    recognized_scheds.Nodup ∧ recognized_scheds.length = 7 ∧
    (∀ r ∈ recognized_scheds, (init_schedule r 1 1 1 1).isSome = true) ∧
    init_schedule "bogus" 1 1 1 1 = none := by
  refine ⟨by decide, by decide, ?_, by simp [init_schedule]⟩
  intro r hr
  fin_cases hr <;> simp [init_schedule]

/-- C9: the names constant and none select the same branch of
init_schedule, a LambdaLR whose multiplier function is the constant 1, so
the two configurations behave identically at every step. -/
theorem init_schedule_constant_none (tl : Nat) (lr : ℝ) (e d : Nat) :
    init_schedule "constant" tl lr e d = init_schedule "none" tl lr e d ∧
    ∃ f, init_schedule "constant" tl lr e d = some (Scheduler.lambdaLR f) ∧
      ∀ step, f step = 1 := by
  refine ⟨by simp [init_schedule], fun _ => 1, by simp [init_schedule], fun _ => rfl⟩

/-- Every member of any of the three parts of split_data is a member of
the shuffled dataset. -/
theorem split_data_subset {α : Type} (shuffle : List α → List α) (ds : List α)
    (t v : ℚ) (x : α)
    (hx : x ∈ (split_data shuffle ds t v).1 ∨ x ∈ (split_data shuffle ds t v).2.1 ∨
          x ∈ (split_data shuffle ds t v).2.2) :
    x ∈ shuffle ds := by
  simp only [split_data, train_test_split] at hx
  rcases hx with h | h | h
  · exact List.mem_of_mem_take h
  · exact List.mem_of_mem_drop (List.mem_of_mem_take h)
  · exact List.mem_of_mem_drop (List.mem_of_mem_drop h)

/-- C5: for a permutation shuffle and split ratios with
train_split + val_split < 1, the three parts of split_data concatenate to
a permutation of the dataset: they are disjoint as dataset rows and their
sizes sum exactly to the dataset size. -/
theorem split_data_partition {α : Type} (shuffle : List α → List α)
    (dataset : List α) (t v : ℚ) (hsh : ∀ l, (shuffle l).Perm l)
    (hv : t + v < 1) :
    ((split_data shuffle dataset t v).1 ++ (split_data shuffle dataset t v).2.1 ++
        (split_data shuffle dataset t v).2.2).Perm dataset ∧
    (split_data shuffle dataset t v).1.length +
        (split_data shuffle dataset t v).2.1.length +
        (split_data shuffle dataset t v).2.2.length = dataset.length := by
  have hperm : ((split_data shuffle dataset t v).1 ++
      (split_data shuffle dataset t v).2.1 ++
      (split_data shuffle dataset t v).2.2).Perm dataset := by
    simp only [split_data, train_test_split]
    rw [List.append_assoc, List.take_append_drop, List.take_append_drop]
    exact hsh dataset
  refine ⟨hperm, ?_⟩
  have hlen := hperm.length_eq
  simp only [List.length_append] at hlen
  omega

/-- Witness for split_data_partition: the identity shuffle on four rows
with ratios one half and one quarter. -/
theorem split_data_partition_w :
    ((split_data id [1, 2, 3, 4] (1/2) (1/4)).1 ++
        (split_data id [1, 2, 3, 4] (1/2) (1/4)).2.1 ++
        (split_data id [1, 2, 3, 4] (1/2) (1/4)).2.2).Perm [1, 2, 3, 4] ∧
    (split_data id [1, 2, 3, 4] (1/2) (1/4)).1.length +
        (split_data id [1, 2, 3, 4] (1/2) (1/4)).2.1.length +
        (split_data id [1, 2, 3, 4] (1/2) (1/4)).2.2.length =
      ([1, 2, 3, 4] : List Nat).length :=
  split_data_partition id [1, 2, 3, 4] (1/2) (1/4)
    (fun l => List.Perm.refl l) (by norm_num)

/-- Every member of any of the three parts of load_reddit comes from a
dataset row that passed the length filter, with doc_len set to the
document length. -/
theorem load_reddit_mem (shuffle : List Inst → List Inst)
    (hsh : ∀ l, (shuffle l).Perm l) (dataset : List RawInst) (t v : ℚ)
    (m : Nat) (x : Inst)
    (hx : x ∈ (load_reddit shuffle dataset t v m).1 ∨
          x ∈ (load_reddit shuffle dataset t v m).2.1 ∨
          x ∈ (load_reddit shuffle dataset t v m).2.2) :
    ∃ raw, raw ∈ dataset ∧
      x = Inst.mk raw.document raw.summary raw.document.length ∧
      m < raw.document.length ∧ m < raw.summary.length ∧
      raw.summary.length < raw.document.length := by
  simp only [load_reddit, List.mem_mergeSort] at hx
  have hx2 := split_data_subset shuffle _ t v x hx
  have hx3 := (hsh _).mem_iff.mp hx2
  obtain ⟨raw, hraw, hxeq⟩ := List.mem_map.mp hx3
  obtain ⟨hmem, hpred⟩ := List.mem_filter.mp hraw
  simp only [Bool.and_eq_true, decide_eq_true_eq] at hpred
  exact ⟨raw, hmem, hxeq.symm, hpred.1.1, hpred.1.2, hpred.2⟩

/-- C6: each of the three parts returned by load_reddit is sorted non
decreasingly by the doc_len field, and for a permutation shuffle the
doc_len field of every member equals the length of its document. -/
theorem load_reddit_sorted (shuffle : List Inst → List Inst)
    (hsh : ∀ l, (shuffle l).Perm l) (dataset : List RawInst) (t v : ℚ)
    (m : Nat) :
    (List.Sorted (fun a b : Inst => a.doc_len ≤ b.doc_len)
        (load_reddit shuffle dataset t v m).1 ∧
      ∀ x ∈ (load_reddit shuffle dataset t v m).1,
        x.doc_len = x.document.length) ∧
    (List.Sorted (fun a b : Inst => a.doc_len ≤ b.doc_len)
        (load_reddit shuffle dataset t v m).2.1 ∧
      ∀ x ∈ (load_reddit shuffle dataset t v m).2.1,
        x.doc_len = x.document.length) ∧
    (List.Sorted (fun a b : Inst => a.doc_len ≤ b.doc_len)
        (load_reddit shuffle dataset t v m).2.2 ∧
      ∀ x ∈ (load_reddit shuffle dataset t v m).2.2,
        x.doc_len = x.document.length) := by
  have htrans : ∀ a b c : Inst, doc_len_le a b = true → doc_len_le b c = true →
      doc_len_le a c = true := by
    intro a b c hab hbc
    simp only [doc_len_le, decide_eq_true_eq] at hab hbc ⊢
    omega
  have htot : ∀ a b : Inst, (doc_len_le a b || doc_len_le b a) = true := by
    intro a b
    simp only [doc_len_le, Bool.or_eq_true, decide_eq_true_eq]
    omega
  have hlen1 : ∀ x ∈ (load_reddit shuffle dataset t v m).1,
      x.doc_len = x.document.length := by
    intro x hx
    obtain ⟨raw, _, rfl, _⟩ := load_reddit_mem shuffle hsh dataset t v m x (Or.inl hx)
    rfl
  have hlen2 : ∀ x ∈ (load_reddit shuffle dataset t v m).2.1,
      x.doc_len = x.document.length := by
    intro x hx
    obtain ⟨raw, _, rfl, _⟩ :=
      load_reddit_mem shuffle hsh dataset t v m x (Or.inr (Or.inl hx))
    rfl
  have hlen3 : ∀ x ∈ (load_reddit shuffle dataset t v m).2.2,
      x.doc_len = x.document.length := by
    intro x hx
    obtain ⟨raw, _, rfl, _⟩ :=
      load_reddit_mem shuffle hsh dataset t v m x (Or.inr (Or.inr hx))
    rfl
  refine ⟨⟨?_, hlen1⟩, ⟨?_, hlen2⟩, ⟨?_, hlen3⟩⟩ <;>
  · simp only [load_reddit]
    exact List.Pairwise.imp
      (fun hab => by simpa [doc_len_le] using hab)
      (List.sorted_mergeSort htrans htot _)

/-- Witness for load_reddit_sorted: the identity shuffle on a two row
dataset. -/
theorem load_reddit_sorted_w :
    (List.Sorted (fun a b : Inst => a.doc_len ≤ b.doc_len)
        (load_reddit id [RawInst.mk "abc" "ab", RawInst.mk "abcd" "ab"] (1/2) 0 1).1 ∧
      ∀ x ∈ (load_reddit id [RawInst.mk "abc" "ab", RawInst.mk "abcd" "ab"] (1/2) 0 1).1,
        x.doc_len = x.document.length) ∧
    (List.Sorted (fun a b : Inst => a.doc_len ≤ b.doc_len)
        (load_reddit id [RawInst.mk "abc" "ab", RawInst.mk "abcd" "ab"] (1/2) 0 1).2.1 ∧
      ∀ x ∈ (load_reddit id [RawInst.mk "abc" "ab", RawInst.mk "abcd" "ab"] (1/2) 0 1).2.1,
        x.doc_len = x.document.length) ∧
    (List.Sorted (fun a b : Inst => a.doc_len ≤ b.doc_len)
        (load_reddit id [RawInst.mk "abc" "ab", RawInst.mk "abcd" "ab"] (1/2) 0 1).2.2 ∧
      ∀ x ∈ (load_reddit id [RawInst.mk "abc" "ab", RawInst.mk "abcd" "ab"] (1/2) 0 1).2.2,
        x.doc_len = x.document.length) :=
  load_reddit_sorted id (fun l => List.Perm.refl l)
    [RawInst.mk "abc" "ab", RawInst.mk "abcd" "ab"] (1/2) 0 1

/-- C7: every instance in any of the three parts of load_reddit passes
the length threshold filter: document length and summary length both
exceed min_len. -/
theorem load_reddit_min_len (shuffle : List Inst → List Inst)
    (hsh : ∀ l, (shuffle l).Perm l) (dataset : List RawInst) (t v : ℚ)
    (m : Nat) (x : Inst)
    (hx : x ∈ (load_reddit shuffle dataset t v m).1 ∨
          x ∈ (load_reddit shuffle dataset t v m).2.1 ∨
          x ∈ (load_reddit shuffle dataset t v m).2.2) :
    m < x.document.length ∧ m < x.summary.length := by
  obtain ⟨raw, _, rfl, h1, h2, _⟩ := load_reddit_mem shuffle hsh dataset t v m x hx
  exact ⟨h1, h2⟩

/-- Witness for load_reddit_min_len: the instance with document abc lands
in the train part of a two row dataset and passes the threshold one. -/
theorem load_reddit_min_len_w :
    1 < (Inst.mk "abc" "ab" 3).document.length ∧
    1 < (Inst.mk "abc" "ab" 3).summary.length :=
  load_reddit_min_len id (fun l => List.Perm.refl l)
    [RawInst.mk "abc" "ab", RawInst.mk "abcd" "ab"] (1/2) 0 1
    (Inst.mk "abc" "ab" 3)
    (Or.inl (by
      simp only [load_reddit, List.mem_mergeSort]
      have hm : (List.filter (fun x =>
            decide (1 < x.document.length) && decide (1 < x.summary.length) &&
              decide (x.summary.length < x.document.length))
            [RawInst.mk "abc" "ab", RawInst.mk "abcd" "ab"]).map
            (fun x => Inst.mk x.document x.summary x.document.length) =
          [Inst.mk "abc" "ab" 3, Inst.mk "abcd" "ab" 4] := by decide
      rw [hm]
      simp only [split_data, train_test_split, id]
      norm_num))
